import Mathlib

/-!
Verification of the gpui-lucide repository: build-time icon catalog
generation (`crates/gpui-lucide/build.rs`), the `Icon` component and its
size presets (`crates/gpui-lucide/src/icon.rs`), and the playground's
search filter, browser state, grid layout and virtual windowing
(`crates/playground/src/main.rs`), shallowly embedded in Lean.

Strings are modelled as lists of characters (`Str`).  Rust's
`str::to_lowercase` / `str::to_uppercase` are modelled character-wise by
`Char.toLower` / `Char.toUpper` (the basic-latin case mapping; the catalog
names this code filters are ASCII kebab-case file stems).  `f32`
arithmetic in the layout computation is modelled exactly over `ℚ`.
-/

abbrev Str : Type := List Char

/-- Model of Rust `str::contains` (substring containment). -/
def containsSubstr (needle : Str) : Str → Bool
  | [] => needle.isEmpty
  | c :: t => needle.isPrefixOf (c :: t) || containsSubstr needle t

/-! ## `filter_icons` (crates/playground/src/main.rs, lines 157-166)

The catalog is abstracted as the list of the icons' canonical names, in
`IconName::all()` enumeration order; an identifier is represented by its
name (names are unique in the generated catalog, and `IconName`'s derived
`PartialEq` is name equality). -/

/-- Model of `filter_icons`: lowercase the query; an empty query yields the
whole catalog, otherwise keep exactly the icons whose name contains the
lowercased query, in catalog order.  A pure function of its inputs. -/
def filterIcons (catalog : List Str) (query : Str) : List Str :=
  let q := query.map Char.toLower
  if q.isEmpty then catalog
  else catalog.filter (fun n => containsSubstr q n)

/-! ## Browser state (crates/playground/src/main.rs, `Playground`) -/

/-- `IconSize` from crates/gpui-lucide/src/icon.rs. -/
inductive IconSize : Type
  | xsmall
  | small
  | medium
  | large
  | xlarge
deriving DecidableEq

/-- `IconSize::to_rems` (icon.rs lines 54-64). -/
def IconSize.to_rems : IconSize → ℚ
  | .xsmall => 3 / 4
  | .small => 7 / 8
  | .medium => 1
  | .large => 3 / 2
  | .xlarge => 2

/-- The session state fields of `Playground` (main.rs lines 145-155) that
the state-mutation claims are about. -/
structure BrowserState where
  is_dark : Bool
  selected_color : Nat
  selected_size : IconSize
  rotation_degrees : ℚ
  filtered_icons : List Str
  hovered_icon : Option Str

/-- Model of the observer installed in `Playground::new` (main.rs lines
183-191), which is the only place a query change is handled: recompute
`filtered_icons` from the new query text, then clear `hovered_icon` when it
is set and no longer contained in the new filtered list
(`Vec::contains`, i.e. membership). -/
def setQuery (catalog : List Str) (q : Str) (s : BrowserState) : BrowserState :=
  let filtered := filterIcons catalog q
  let hovered : Option Str :=
    match s.hovered_icon with
    | some h => if h ∈ filtered then some h else none
    | none => none
  { s with filtered_icons := filtered, hovered_icon := hovered }

/-! ## Grid layout (crates/playground/src/main.rs, `render_icon_grid`) -/

/-- `CARD_SIZE` (72.0). -/
def cardSize : ℚ := 72

/-- `GAP` (8.0). -/
def gridGap : ℚ := 8

/-- `PADDING` (16.0). -/
def gridPadding : ℚ := 16

/-- Model of the items-per-row computation in `render_icon_grid` (main.rs
lines 556-563).  Rust's `(x).floor() as usize` is modelled by
`Int.toNat ⌊x⌋`: the `as usize` conversion saturates negative values at
zero, which `Int.toNat` does as well. -/
def itemsPerRowOf (gridWidth : ℚ) : Nat :=
  let availableWidth := gridWidth - gridPadding * 2
  (Int.toNat ⌊(availableWidth + gridGap) / (cardSize + gridGap)⌋).max 1

/-- Model of Rust `usize::div_ceil` (which the code only calls with a
positive divisor). -/
def rustDivCeil (a b : Nat) : Nat :=
  let d := a / b
  let r := a % b
  if 0 < r then d + 1 else d

/-- `num_rows` in `render_icon_grid` (main.rs line 565). -/
def numRowsOf (count itemsPerRow : Nat) : Nat :=
  rustDivCeil count itemsPerRow

/-! ## Virtual windowing (crates/playground/src/main.rs, lines 594-654)

The `uniform_list` processor maps each visible row index to the items with
indices `start..end` where `start = row_idx * items_per_row` and
`end = min (start + items_per_row) filtered.len()`; an empty Rust range
(`end < start`, possible when `start > len`) yields no items. -/

/-- The items of one row, as produced by the processor closure. -/
def rowItems (filtered : List α) (itemsPerRow r : Nat) : List α :=
  let start := r * itemsPerRow
  let stop := min (start + itemsPerRow) filtered.length
  (filtered.drop start).take (stop - start)

/-- The windowing pass over the half-open visible row range `[a, b)` (an
empty list when `b ≤ a`, exactly like an empty Rust `Range`). -/
def produceRows (a b : Nat) (filtered : List α) (itemsPerRow : Nat) : List (List α) :=
  (List.range' a (b - a)).map (rowItems filtered itemsPerRow)

/-! ## Catalog generation (crates/gpui-lucide/build.rs) -/

/-- The three relevant states of the icons directory as observed by
`build.rs`: missing (`exists()` is false), present but unreadable
(`read_dir` fails), or readable with a list of plain file names. -/
inductive DirAccess : Type
  | absentDir : DirAccess
  | unreadableDir : DirAccess
  | readableDir (files : List Str) : DirAccess

/-- `entry.path().extension() == "svg")` for a plain file name: the name
ends in `.svg` with a nonempty stem (Rust reports no extension for a bare
leading-dot name such as `.svg`).  The comparison is case-sensitive,
exactly as `ext == "svg"` is. -/
def hasSvgExt (f : Str) : Bool :=
  decide (4 < f.length) && (".svg".toList).isSuffixOf f

/-- `path.file_stem()` for a file name that passed `hasSvgExt`: the name
with the final `.svg` removed. -/
def svgStem (f : Str) : Str :=
  f.take (f.length - 4)

/-- One word capitalized: first character uppercased, the rest lowercased.
Modelled from the `heck` crate (an external dependency, not part of this
repository). -/
def capitalizeWord : Str → Str
  | [] => []
  | c :: t => Char.toUpper c :: t.map Char.toLower

/-- Modelled from the `heck` crate's `to_upper_camel_case` (external
dependency): split the name into words at non-alphanumeric separators
(hyphen, underscore, ...) and concatenate the capitalized words.  (`heck`
additionally splits at lower-to-upper case boundaries inside alphanumeric
runs; the catalog file stems are lowercase kebab-case, where that
refinement never fires.) -/
def upperCamelCase (s : Str) : Str :=
  (((s.splitOnP (fun c => !c.isAlphanum)).filter (fun w => !w.isEmpty)).map capitalizeWord).flatten

/-- The variant-name derivation in `build.rs` (lines 41-53): camel-case the
file stem and prefix the sentinel letter `N` when the leading character is
numeric. -/
def variantNameOf (stem : Str) : Str :=
  let v := upperCamelCase stem
  if (v.head?.map Char.isDigit).getD false then 'N' :: v else v

/-- One `(variant_name, file_stem, file_name)` record pushed into
`icon_entries` by `build.rs`. -/
structure IconEntry where
  variant : Str
  stem : Str
  fileName : Str
deriving DecidableEq

/-- Byte-wise lexicographic order on file names, the key order of
`entries.sort_by_key(|e| e.path())` (all paths share the directory
prefix, so path order is file-name order). -/
def strLe : Str → Str → Bool
  | [], _ => true
  | _ :: _, [] => false
  | a :: as, b :: bs => decide (a.toNat < b.toNat) || (a == b && strLe as bs)

/-- The entry-processing loop of `build.rs` `main` (lines 24-59) on a
readable directory: keep the `.svg` files, sort them (Rust's
`sort_by_key` is a stable sort, modelled by insertion sort), and derive
`(variant_name, file_stem, file_name)` with
`file_name = format!("{}.svg", file_stem)`. -/
def processEntries (files : List Str) : List IconEntry :=
  (List.insertionSort (fun a b => strLe a b = true) (files.filter hasSvgExt)).map (fun f =>
    let stem := svgStem f
    { variant := variantNameOf stem, stem := stem, fileName := stem ++ ".svg".toList })

/-- Model of `build.rs` `main`: an absent directory is skipped silently
(the entry list stays empty and generation proceeds), an unreadable
directory aborts via `.expect("Failed to read icons directory")`, and a
readable directory yields the processed entries.  The generated artifact
contains one enum variant, one `path()` arm and one `name()` arm per
entry; no deduplication of any kind is performed. -/
def buildMain : DirAccess → Except String (List IconEntry)
  | .absentDir => .ok []
  | .unreadableDir => .error "Failed to read icons directory"
  | .readableDir files => .ok (processEntries files)

/-- `IconName::all()` of the generated code: the variants in entry order. -/
def genAll (entries : List IconEntry) : List Str :=
  entries.map (fun e => e.variant)

/-- `IconName::count()` of the generated code. -/
def genCount (entries : List IconEntry) : Nat :=
  entries.length

/-- `IconName::path()` of the generated code: `"icons/{file_name}"`. -/
def genPath (e : IconEntry) : Str :=
  "icons/".toList ++ e.fileName

/-- `IconName::name()` of the generated code: the file stem. -/
def genName (e : IconEntry) : Str :=
  e.stem

/-- Modelled from the spec: `CanonicalName` is the lowercase,
hyphen-or-underscore-normalized string derived from the base file name
(hyphen and underscore mark the same word break, so they are identified). -/
def specCanonicalName (stem : Str) : Str :=
  (stem.map Char.toLower).map (fun c => if c = '_' then '-' else c)

/-! ## The `Icon` component (crates/gpui-lucide/src/icon.rs)

The gpui types the component manipulates (`Svg`, `StyleRefinement`,
`Transformation`) are external collaborators; they are modelled at their
interface: a style refinement records the fields the icon code writes, and
`Svg::with_transformation` stores the given transformation. -/

/-- A length stored in a style refinement: absolute pixels or rem-relative
units. -/
inductive LenM : Type
  | px (v : ℚ) : LenM
  | rems (v : ℚ) : LenM
deriving DecidableEq

/-- The fragment of gpui `StyleRefinement` the icon code touches. -/
structure StyleM where
  sizeWidth : Option LenM := none
  sizeHeight : Option LenM := none
  flexNone : Bool := false
  flexShrinkZero : Bool := false
  textColor : Option Nat := none
deriving DecidableEq

/-- gpui `Transformation` (scale, translate, rotate). -/
structure TransM where
  scaleX : ℚ := 1
  scaleY : ℚ := 1
  translateX : ℚ := 0
  translateY : ℚ := 0
  rotation : ℚ := 0
deriving DecidableEq

/-- `Transformation::rotate(r)`: the identity transformation with angle
`r`. -/
def TransM.rotateBy (r : ℚ) : TransM :=
  { rotation := r }

/-- gpui `Svg` element state used by the icon code: an optional
transformation and a style refinement. -/
structure SvgM where
  transformation : Option TransM := none
  style : StyleM := {}
deriving DecidableEq

/-- `.size(len)` through gpui `Styled`: writes both width and height. -/
def setSizeStyle (l : LenM) (s : StyleM) : StyleM :=
  { s with sizeWidth := some l, sizeHeight := some l }

/-- `svg().flex_none().size_4()` — the base element built by
`Icon::default` and rebuilt from scratch by the manual `Clone` impl
(`size_4` is 1 rem). -/
def defaultSvgBase : SvgM :=
  { transformation := none,
    style := setSizeStyle (.rems 1) { flexNone := true } }

/-- The `Icon` struct (icon.rs lines 91-98). -/
structure IconM where
  base : SvgM
  path : Str
  color : Option Nat
  size : Option IconSize
  custom_style : StyleM
deriving DecidableEq

/-- `Icon::default()` (icon.rs lines 100-110). -/
def IconM.mkDefault : IconM :=
  { base := defaultSvgBase, path := [], color := none, size := none, custom_style := {} }

/-- `Icon::from_path`. -/
def IconM.fromPath (p : Str) : IconM :=
  { IconM.mkDefault with path := p }

/-- `Icon::color`. -/
def IconM.withColor (i : IconM) (c : Nat) : IconM :=
  { i with color := some c }

/-- `Icon::with_size`. -/
def IconM.with_size (i : IconM) (s : IconSize) : IconM :=
  { i with size := some s }

/-- gpui `Svg::with_transformation`: store the transformation. -/
def SvgM.with_transformation (b : SvgM) (t : TransM) : SvgM :=
  { b with transformation := some t }

/-- `Icon::rotate` (icon.rs lines 156-161): wrap the angle in a rotation
transformation and store it on the base element. -/
def IconM.rotate (i : IconM) (r : ℚ) : IconM :=
  { i with base := i.base.with_transformation (TransM.rotateBy r) }

/-- `Icon::transform` (icon.rs lines 164-167). -/
def IconM.transform (i : IconM) (t : TransM) : IconM :=
  { i with base := i.base.with_transformation t }

/-- The manual `Clone` impl for `Icon` (icon.rs lines 112-122): the base
element is rebuilt from scratch as `svg().flex_none().size_4()`; path,
color, size and custom style are copied. -/
def IconM.clone (i : IconM) : IconM :=
  { base := defaultSvgBase, path := i.path, color := i.color, size := i.size,
    custom_style := i.custom_style }

/-- Host-side ambient values read by `Icon::render`: the window's text
color, the ambient font size resolved to pixels, and the rem size in
pixels. -/
structure HostEnv where
  textColor : Nat
  textSizePx : ℚ
  remSizePx : ℚ

/-- Model of `RenderOnce::render` for `Icon` (icon.rs lines 176-199),
returning the final `Svg` element state.  The custom style replaces the
base's style wholesale; then `flex_shrink_0` and the text color are set;
then, when neither a custom size nor a preset is present, the ambient text
size is written; finally a present preset writes its rem size. -/
def renderIcon (i : IconM) (env : HostEnv) : SvgM :=
  let text_color := i.color.getD env.textColor
  let text_size := env.textSizePx
  let has_custom_size := i.custom_style.sizeWidth.isSome || i.custom_style.sizeHeight.isSome
  let base : SvgM := { i.base with style := i.custom_style }
  let base : SvgM :=
    { base with style := { base.style with flexShrinkZero := true, textColor := some text_color } }
  let base : SvgM :=
    if !has_custom_size && i.size.isNone then
      { base with style := setSizeStyle (.px text_size) base.style }
    else base
  match i.size with
  | some s => { base with style := setSizeStyle (.rems s.to_rems) base.style }
  | none => base

/-- The width of the rendered element resolved to pixels. -/
def resolvedSizePx (b : SvgM) (remSizePx : ℚ) : Option ℚ :=
  match b.style.sizeWidth with
  | some (.px v) => some v
  | some (.rems r) => some (r * remSizePx)
  | none => none

/-- The text color of the rendered element. -/
def resolvedColor (b : SvgM) : Option Nat :=
  b.style.textColor

/-- An icon carrying exactly the optional inputs of the style-resolution
claim: an optional explicit color, an optional explicit pixel size (set
through the `Styled` impl, i.e. into `custom_style`), and an optional size
preset. -/
def iconWithInputs (ec : Option Nat) (epx : Option ℚ) (pr : Option IconSize) : IconM :=
  let i := IconM.fromPath "icons/heart.svg".toList
  let i := match ec with
    | some c => i.withColor c
    | none => i
  let i := match epx with
    | some v => { i with custom_style := setSizeStyle (.px v) i.custom_style }
    | none => i
  match pr with
  | some s => i.with_size s
  | none => i

/-! ## Helper lemmas -/

theorem char_toNat_ofNat_of_valid {n : Nat} (h : n.isValidChar) :
    (Char.ofNat n).toNat = n := by
  simp only [Char.ofNat, dif_pos h]
  rfl

theorem char_toLower_toUpper (c : Char) :
    (Char.toUpper c).toLower = c.toLower := by
  simp only [Char.toUpper, Char.toLower]
  by_cases h : c.toNat ≥ 97 ∧ c.toNat ≤ 122
  · have hv : (c.toNat - 32).isValidChar := Or.inl (by omega)
    rw [if_pos h, char_toNat_ofNat_of_valid hv]
    rw [if_pos (by omega), if_neg (by omega)]
    have he : c.toNat - 32 + 32 = c.toNat := by omega
    rw [he, Char.ofNat_toNat]
  · rw [if_neg h]

theorem filterIcons_map_toLower (catalog : List Str) (q : Str) :
    filterIcons catalog (q.map Char.toUpper) = filterIcons catalog q := by
  unfold filterIcons
  rw [List.map_map]
  have h : (Char.toLower ∘ Char.toUpper) = Char.toLower := funext char_toLower_toUpper
  rw [h]

/-- C5: for every query string and every catalog, filtering with the query
and filtering with its uppercased form return identical identifier
sequences — the match of `filter_icons` is case-insensitive in the query
(both sides lowercase the query first, and uppercasing then lowercasing a
character is the same as lowercasing it). -/
theorem filter_case_insensitive (catalog : List Str) (q : Str) :
    filterIcons catalog q = filterIcons catalog (q.map Char.toUpper) :=
  (filterIcons_map_toLower catalog q).symm

/-- C6: filtering with the empty query returns the full catalog in catalog
enumeration order; filtering with a non-empty query returns exactly the
identifiers whose canonical name contains the (per the spec's match
definition, case-insensitively: the lowercased) query as a substring; the
result is always a sublist of the catalog, so the catalog's relative order
is preserved and never re-sorted by match quality.  The filter is a Lean
function of `(catalog, query)`, hence pure by construction. -/
theorem filter_functional_spec (catalog : List Str) (q : Str) :
    filterIcons catalog [] = catalog ∧
    (filterIcons catalog q).Sublist catalog ∧
    (∀ n, n ∈ filterIcons catalog q ↔
      n ∈ catalog ∧ (q ≠ [] → containsSubstr (q.map Char.toLower) n = true)) := by
  refine ⟨rfl, ?_, ?_⟩
  · unfold filterIcons
    by_cases hq : (q.map Char.toLower).isEmpty
    · rw [if_pos hq]
    · rw [if_neg hq]
      exact List.filter_sublist catalog
  · intro n
    unfold filterIcons
    cases q with
    | nil => simp
    | cons c t =>
      simp only [List.map_cons, List.isEmpty_cons, if_false,
        List.mem_filter, ne_eq, reduceCtorEq, not_false_iff, forall_const]

/-- C2: `setQuery` (the search-input observer) first recomputes
`filtered_icons` as the filter of the new query against the catalog and
then clears `hovered_icon` exactly when it is set and not a member of the
new filtered list; a query that still includes the hovered identifier
leaves it untouched.  Consequently, after any `setQuery` the hovered
identifier is absent or a member of the filtered list. -/
theorem setQuery_hover_invariant (catalog : List Str) (q : Str) (s : BrowserState) :
    (setQuery catalog q s).filtered_icons = filterIcons catalog q ∧
    (∀ h, s.hovered_icon = some h →
      (setQuery catalog q s).hovered_icon =
        (if h ∈ filterIcons catalog q then some h else none)) ∧
    (s.hovered_icon = none → (setQuery catalog q s).hovered_icon = none) ∧
    ((setQuery catalog q s).hovered_icon = none ∨
      ∃ h, (setQuery catalog q s).hovered_icon = some h ∧
        h ∈ (setQuery catalog q s).filtered_icons) := by
  unfold setQuery
  refine ⟨rfl, ?_, ?_, ?_⟩
  · intro h hh
    simp only [hh]
  · intro hh
    simp only [hh]
  · cases hs : s.hovered_icon with
    | none => simp [hs]
    | some h =>
      by_cases hm : h ∈ filterIcons catalog q
      · right
        exact ⟨h, by simp [hs, hm], by simpa using hm⟩
      · left
        simp [hs, hm]

theorem rustDivCeil_eq_ceil (a b : Nat) (hb : 1 ≤ b) :
    (rustDivCeil a b : ℤ) = ⌈(a : ℚ) / (b : ℚ)⌉ := by
  obtain ⟨q, r, hqr, hr⟩ : ∃ q r, a = b * q + r ∧ r < b :=
    ⟨a / b, a % b, (Nat.div_add_mod a b).symm, Nat.mod_lt a (by omega)⟩
  subst hqr
  have hb0 : (0 : ℚ) < (b : ℚ) := by exact_mod_cast hb
  have hdiv : (b * q + r) / b = q := by
    rw [Nat.mul_add_div (by omega)]
    simp [Nat.div_eq_of_lt hr]
  have hmod : (b * q + r) % b = r := by
    rw [Nat.mul_add_mod]
    exact Nat.mod_eq_of_lt hr
  unfold rustDivCeil
  simp only [hdiv, hmod]
  have hcast : ((b * q + r : Nat) : ℚ) = (b : ℚ) * (q : ℚ) + (r : ℚ) := by
    push_cast
    ring
  rw [hcast]
  have hsplit : ((b : ℚ) * q + r) / b = (r : ℚ) / b + (q : ℚ) := by
    field_simp
    ring
  rw [hsplit]
  by_cases hr0 : 0 < r
  · rw [if_pos hr0]
    rw [Int.ceil_add_nat]
    have hone : ⌈(r : ℚ) / b⌉ = 1 := by
      rw [Int.ceil_eq_iff]
      constructor
      · push_cast
        simp only [sub_self]
        exact div_pos (by exact_mod_cast hr0) hb0
      · push_cast
        rw [div_le_one hb0]
        exact_mod_cast hr.le
    rw [hone]
    push_cast
    ring
  · rw [if_neg hr0]
    have hr00 : r = 0 := by omega
    subst hr00
    simp

/-- C3: for every non-negative viewport width (including 0, modelled
exactly over `ℚ`) and every item count, the grid layout of
`render_icon_grid` computes
`itemsPerRow = max 1 ⌊(viewportWidth - 2*padding + gap) / (cardSize + gap)⌋`
and `rowCount = ⌈itemCount / itemsPerRow⌉`; in particular `itemsPerRow`
is never less than 1, even for pathologically narrow viewports. -/
theorem computeLayout_spec (w : ℚ) (hw : 0 ≤ w) (count : Nat) :
    (itemsPerRowOf w : ℤ) = max 1 ⌊(w - 2 * gridPadding + gridGap) / (cardSize + gridGap)⌋ ∧
    1 ≤ itemsPerRowOf w ∧
    (numRowsOf count (itemsPerRowOf w) : ℤ) = ⌈(count : ℚ) / (itemsPerRowOf w : ℚ)⌉ := by
  have harg : w - gridPadding * 2 + gridGap = w - 2 * gridPadding + gridGap := by ring
  have hle : 1 ≤ itemsPerRowOf w := Nat.le_max_right _ 1
  refine ⟨?_, hle, ?_⟩
  · simp only [itemsPerRowOf]
    rw [harg]
    push_cast [Int.toNat_eq_max]
    omega
  · exact rustDivCeil_eq_ceil count (itemsPerRowOf w) hle

/-- C3, witness at the spec's own scenario: viewport width 300 gives 3
items per row, and 10 items then give 4 rows. -/
theorem computeLayout_spec_witness :
    (0 : ℚ) ≤ 300 ∧
    ((itemsPerRowOf 300 : ℤ) =
        max 1 ⌊((300 : ℚ) - 2 * gridPadding + gridGap) / (cardSize + gridGap)⌋ ∧
      1 ≤ itemsPerRowOf 300 ∧
      (numRowsOf 10 (itemsPerRowOf 300) : ℤ) = ⌈(10 : ℚ) / (itemsPerRowOf 300 : ℚ)⌉) :=
  ⟨by norm_num, computeLayout_spec 300 (by norm_num) 10⟩

theorem take_add_split (m n : Nat) (l : List α) :
    l.take (m + n) = l.take m ++ (l.drop m).take n := by
  rw [List.take_drop]
  conv_lhs => rw [← List.take_append_drop m (l.take (m + n))]
  congr 1
  rw [List.take_take]
  congr 1
  omega

theorem rowItems_eq_take_drop (l : List α) (ipr r : Nat) :
    rowItems l ipr r = (l.drop (r * ipr)).take ipr := by
  simp only [rowItems]
  rcases le_or_lt (r * ipr) l.length with h | h
  · have h1 : min (r * ipr + ipr) l.length - r * ipr = min ipr (l.length - r * ipr) := by
      omega
    rw [h1]
    rcases le_or_lt ipr (l.length - r * ipr) with h2 | h2
    · rw [min_eq_left h2]
    · rw [min_eq_right h2.le]
      rw [List.take_of_length_le (by simp), List.take_of_length_le (by simp; omega)]
  · have h1 : min (r * ipr + ipr) l.length - r * ipr = 0 := by omega
    rw [h1]
    have h2 : l.drop (r * ipr) = [] := List.drop_eq_nil_of_le h.le
    rw [h2]
    simp

theorem flatten_produceRows (l : List α) (ipr : Nat) :
    ∀ (n k : Nat), ((List.range' k n).map (rowItems l ipr)).flatten
      = (l.drop (k * ipr)).take (n * ipr) := by
  intro n
  induction n with
  | zero => intro k; simp
  | succ m ih =>
    intro k
    rw [List.range'_succ, List.map_cons, List.flatten_cons, ih (k + 1),
      rowItems_eq_take_drop]
    have h1 : (m + 1) * ipr = ipr + m * ipr := by ring
    rw [h1, take_add_split, List.drop_drop]
    have h2 : k * ipr + ipr = (k + 1) * ipr := by ring
    rw [h2]

theorem length_le_numRows_mul (len ipr : Nat) (h : 1 ≤ ipr) :
    len ≤ numRowsOf len ipr * ipr := by
  unfold numRowsOf rustDivCeil
  have hmod := Nat.div_add_mod len ipr
  by_cases hr : 0 < len % ipr
  · rw [if_pos hr]
    have : (len / ipr + 1) * ipr = len / ipr * ipr + ipr := by ring
    rw [this]
    have hlt : len % ipr < ipr := Nat.mod_lt len (by omega)
    calc len = ipr * (len / ipr) + len % ipr := hmod.symm
    _ ≤ ipr * (len / ipr) + ipr := by omega
    _ = len / ipr * ipr + ipr := by ring
  · rw [if_neg hr, Nat.div_mul_cancel (Nat.dvd_of_mod_eq_zero (by omega))]

/-- C1: for every filtered list, every `itemsPerRow ≥ 1` and every
half-open visible row range `[a, b)`, the windowing pass of
`render_icon_grid` produces `b - a` rows, row `i` being exactly the slice
`filtered[(a+i)*itemsPerRow .. min ((a+i+1)*itemsPerRow) len]`;
concatenating the rows over the full range `[0, rowCount)` reconstructs
the filtered list exactly; and any row index at or beyond `rowCount`
yields an empty (clipped) row — the pass is a total function and can
never fail. -/
theorem produceRows_spec (l : List α) (ipr a b : Nat) (hipr : 1 ≤ ipr) :
    (produceRows a b l ipr).length = b - a ∧
    (∀ i, i < b - a →
      (produceRows a b l ipr).getD i [] =
        (l.drop ((a + i) * ipr)).take
          (min ((a + i + 1) * ipr) l.length - (a + i) * ipr)) ∧
    (produceRows 0 (numRowsOf l.length ipr) l ipr).flatten = l ∧
    (∀ r, numRowsOf l.length ipr ≤ r → rowItems l ipr r = []) := by
  refine ⟨?_, ?_, ?_, ?_⟩
  · simp [produceRows]
  · intro i hi
    have hmul : (a + i + 1) * ipr = (a + i) * ipr + ipr := by ring
    rw [hmul]
    unfold produceRows
    rw [List.getD_eq_getElem?_getD, List.getElem?_map,
      List.getElem?_range' _ _ (by omega)]
    simp [rowItems]
  · have h := flatten_produceRows l ipr (numRowsOf l.length ipr) 0
    unfold produceRows
    rw [Nat.sub_zero, h]
    simp only [Nat.zero_mul, List.drop_zero]
    exact List.take_of_length_le (length_le_numRows_mul l.length ipr hipr)
  · intro r hr
    rw [rowItems_eq_take_drop]
    have h1 : l.length ≤ r * ipr :=
      le_trans (length_le_numRows_mul l.length ipr hipr)
        (Nat.mul_le_mul_right ipr hr)
    rw [List.drop_eq_nil_of_le h1]
    simp

/-- C1, witness at the spec's own scenario: 10 items, 3 per row, visible
range `[0, 4)` — 4 rows with sizes 3, 3, 3, 1. -/
theorem produceRows_spec_witness :
    1 ≤ 3 ∧
    ((produceRows 0 4 [0, 1, 2, 3, 4, 5, 6, 7, 8, 9] 3).length = 4 - 0 ∧
      (∀ i, i < 4 - 0 →
        (produceRows 0 4 [0, 1, 2, 3, 4, 5, 6, 7, 8, 9] 3).getD i [] =
          (List.drop ((0 + i) * 3) [0, 1, 2, 3, 4, 5, 6, 7, 8, 9]).take
            (min ((0 + i + 1) * 3) (List.length [0, 1, 2, 3, 4, 5, 6, 7, 8, 9]) -
              (0 + i) * 3)) ∧
      (produceRows 0 (numRowsOf (List.length [0, 1, 2, 3, 4, 5, 6, 7, 8, 9]) 3)
          [0, 1, 2, 3, 4, 5, 6, 7, 8, 9] 3).flatten = [0, 1, 2, 3, 4, 5, 6, 7, 8, 9] ∧
      (∀ r, numRowsOf (List.length [0, 1, 2, 3, 4, 5, 6, 7, 8, 9]) 3 ≤ r →
        rowItems [0, 1, 2, 3, 4, 5, 6, 7, 8, 9] 3 r = [])) :=
  ⟨by decide, produceRows_spec [0, 1, 2, 3, 4, 5, 6, 7, 8, 9] 3 0 4 (by decide)⟩

/-- C10: when the asset directory does not exist at build time, catalog
generation does not fail: `build.rs` skips the scan and proceeds,
generating an empty catalog (an enum with no variants, `count() = 0`, and
`all()` empty). -/
theorem buildMain_absent_silent :
    buildMain .absentDir = .ok [] ∧
    ∀ es, buildMain .absentDir = .ok es → genCount es = 0 ∧ genAll es = [] := by
  refine ⟨rfl, ?_⟩
  intro es h
  simp only [buildMain] at h
  injection h with h2
  subst h2
  exact ⟨rfl, rfl⟩

/-- C4 is false on the code: the two distinct source files `a-b.svg` and
`a_b.svg` normalize to the same canonical name (and even to the same
camel-cased identifier token `AB`), yet `build.rs` does not halt — it
emits both entries and generation succeeds, producing an ambiguous
catalog with two identical variant tokens.  (The failure only surfaces
later, as a compile error of the generated artifact, with no message
identifying the offending paths.) -/
theorem buildMain_duplicate_not_fatal :
    specCanonicalName "a-b".toList = specCanonicalName "a_b".toList ∧
    "a-b".toList ≠ "a_b".toList ∧
    variantNameOf "a-b".toList = variantNameOf "a_b".toList ∧
    buildMain (.readableDir ["a-b.svg".toList, "a_b.svg".toList]) =
      .ok [⟨"AB".toList, "a-b".toList, "a-b.svg".toList⟩,
        ⟨"AB".toList, "a_b".toList, "a_b.svg".toList⟩] :=
  ⟨by decide, by decide, by decide, rfl⟩

/-- C4, amended: generation is build-time fatal (with the message
`Failed to read icons directory`) when the directory exists but is
unreadable; on a readable directory it never fails and never drops an
entry — it emits exactly one entry per `.svg` source file, even when two
files normalize to the same canonical name, so duplicate names are NOT
detected at generation time. -/
theorem buildMain_amended :
    buildMain .unreadableDir = .error "Failed to read icons directory" ∧
    ∀ files, ∃ es, buildMain (.readableDir files) = .ok es ∧
      es.length = (files.filter hasSvgExt).length :=
  ⟨rfl, fun files => ⟨processEntries files, rfl, by
    simp [processEntries, List.length_map, List.length_insertionSort]⟩⟩

/-- C8: for a catalog generated from any readable directory, `count()`
equals the number of identifiers produced by `all()` and equals the
number of source asset files (the `.svg` files of the directory), and
every identifier's lookup path is exactly the canonical name
round-tripped into `icons/<name>.svg`. -/
theorem genCatalog_spec (files : List Str) (es : List IconEntry)
    (h : buildMain (.readableDir files) = .ok es) :
    genCount es = (genAll es).length ∧
    genCount es = (files.filter hasSvgExt).length ∧
    ∀ e ∈ es, genPath e = "icons/".toList ++ genName e ++ ".svg".toList := by
  simp only [buildMain] at h
  injection h with h2
  subst h2
  refine ⟨by simp [genCount, genAll], ?_, ?_⟩
  · simp [genCount, processEntries, List.length_map, List.length_insertionSort]
  · intro e he
    unfold processEntries at he
    obtain ⟨f, hf, rfl⟩ := List.mem_map.mp he
    simp [genPath, genName, List.append_assoc]

/-- C8, witness on a concrete directory with two `.svg` files (and one
non-asset file that is filtered out). -/
theorem genCatalog_spec_witness :
    (buildMain (.readableDir ["sun.svg".toList, "heart.svg".toList, "README.md".toList]) =
      .ok [⟨"Heart".toList, "heart".toList, "heart.svg".toList⟩,
        ⟨"Sun".toList, "sun".toList, "sun.svg".toList⟩]) ∧
    (genCount [(⟨"Heart".toList, "heart".toList, "heart.svg".toList⟩ : IconEntry),
        ⟨"Sun".toList, "sun".toList, "sun.svg".toList⟩] =
      (genAll [⟨"Heart".toList, "heart".toList, "heart.svg".toList⟩,
        ⟨"Sun".toList, "sun".toList, "sun.svg".toList⟩]).length ∧
      genCount [(⟨"Heart".toList, "heart".toList, "heart.svg".toList⟩ : IconEntry),
          ⟨"Sun".toList, "sun".toList, "sun.svg".toList⟩] =
        (List.filter hasSvgExt
          ["sun.svg".toList, "heart.svg".toList, "README.md".toList]).length ∧
      ∀ e ∈ [(⟨"Heart".toList, "heart".toList, "heart.svg".toList⟩ : IconEntry),
          ⟨"Sun".toList, "sun".toList, "sun.svg".toList⟩],
        genPath e = "icons/".toList ++ genName e ++ ".svg".toList) :=
  ⟨rfl, genCatalog_spec ["sun.svg".toList, "heart.svg".toList, "README.md".toList]
    [⟨"Heart".toList, "heart".toList, "heart.svg".toList⟩,
      ⟨"Sun".toList, "sun".toList, "sun.svg".toList⟩] rfl⟩

/-- C9: the manual `Clone` impl preserves the icon's path, color, size
preset and custom style refinement, but rebuilds the base element from
scratch, so a rotation (or any transformation) applied via `rotate` /
`transform` is not carried over: cloning a rotated icon gives the same
result as cloning the unrotated icon, and the clone's base carries no
transformation even though the rotated original's base did. -/
theorem clone_drops_rotation (i : IconM) (r : ℚ) (t : TransM) :
    (i.rotate r).clone = i.clone ∧
    (i.transform t).clone = i.clone ∧
    (i.rotate r).base.transformation = some (TransM.rotateBy r) ∧
    (i.clone).base = defaultSvgBase ∧
    (i.clone).path = i.path ∧
    (i.clone).color = i.color ∧
    (i.clone).size = i.size ∧
    (i.clone).custom_style = i.custom_style := by
  refine ⟨rfl, rfl, rfl, rfl, rfl, rfl, rfl, rfl⟩

/-- C7 is false on the code: with an explicit pixel size of 10 px set via
the `Styled` impl and the `Medium` preset both present (host rem size
16 px), `Icon::render` resolves the size to the preset's 1 rem = 16 px —
the preset is applied after the custom style and overrides the explicit
pixel size, instead of the explicit override winning outright. -/
theorem styleResolve_counterexample :
    resolvedSizePx (renderIcon (iconWithInputs none (some 10) (some .medium))
        ⟨0, 14, 16⟩) 16 = some 16 ∧
    (16 : ℚ) ≠ 10 := by
  constructor
  · simp [iconWithInputs, renderIcon, resolvedSizePx, IconM.fromPath, IconM.mkDefault,
      IconM.with_size, setSizeStyle, IconSize.to_rems]
  · norm_num

/-- C7, amended: style resolution returns the explicit color when present
(else the host default).  For size, a set preset wins first, yielding its
mapped relative unit (0.75, 0.875, 1.0, 1.5, 2.0 for the five ordered
tiers) times the host's rem unit — even over an explicit pixel override,
because the preset is applied after the custom style; otherwise an
explicit pixel override wins; otherwise the host's ambient text size is
used. -/
theorem styleResolve_amended (ec : Option Nat) (epx : Option ℚ) (pr : Option IconSize)
    (hostColor : Nat) (textPx remPx : ℚ) :
    resolvedColor (renderIcon (iconWithInputs ec epx pr) ⟨hostColor, textPx, remPx⟩) =
      some (ec.getD hostColor) ∧
    resolvedSizePx (renderIcon (iconWithInputs ec epx pr) ⟨hostColor, textPx, remPx⟩) remPx =
      some (match pr with
        | some s => s.to_rems * remPx
        | none =>
          match epx with
          | some v => v
          | none => textPx) ∧
    IconSize.xsmall.to_rems = 3 / 4 ∧
    IconSize.small.to_rems = 7 / 8 ∧
    IconSize.medium.to_rems = 1 ∧
    IconSize.large.to_rems = 3 / 2 ∧
    IconSize.xlarge.to_rems = 2 := by
  refine ⟨?_, ?_, rfl, rfl, rfl, rfl, rfl⟩
  · cases ec <;> cases epx <;> cases pr <;>
      simp [iconWithInputs, renderIcon, resolvedColor, IconM.fromPath, IconM.mkDefault,
        IconM.withColor, IconM.with_size, setSizeStyle]
  · cases ec <;> cases epx <;> cases pr <;>
      simp [iconWithInputs, renderIcon, resolvedSizePx, IconM.fromPath, IconM.mkDefault,
        IconM.withColor, IconM.with_size, setSizeStyle]
